import Mathlib

/-!
Verification of the quotes-scraper pipeline (`scraper.py`) against its
design specification.  The Python functions are shallowly embedded as Lean
functions: HTML documents are modelled as the structured views the code
queries through BeautifulSoup selectors, the HTTP transport as a function
from URL to page-or-error, and the crawl loop as a fuel-indexed recursion
whose fuel bounds the number of listing fetches.
-/

deriving instance DecidableEq for Except

namespace Scraper

/-- Python `str.strip(c)` for a single strip character `c`, on `List Char`:
removes every leading and every trailing occurrence of `c`. -/
def stripCharList (c : Char) (l : List Char) : List Char :=
  ((l.dropWhile (· = c)).reverse.dropWhile (· = c)).reverse

/-- Python `str.strip(c)` on `String`. -/
def pyStripChar (c : Char) (s : String) : String :=
  ⟨stripCharList c s.data⟩

/-- The whitespace predicate shared by Python `str.strip()` and the `\s`
class of `re` string patterns (CPython's `Py_UNICODE_ISSPACE`): the ASCII
whitespace `\t \n \v \f \r`, space, the file/group/record/unit
separators, NEL, NBSP, and the Unicode space characters U+1680,
U+2000–U+200A, U+2028, U+2029, U+202F, U+205F and U+3000. -/
def isPySpace (c : Char) : Bool :=
  (0x09 ≤ c.val && c.val ≤ 0x0d) || c.val = 0x20 ||
  (0x1c ≤ c.val && c.val ≤ 0x1f) || c.val = 0x85 || c.val = 0xa0 ||
  c.val = 0x1680 || (0x2000 ≤ c.val && c.val ≤ 0x200a) ||
  c.val = 0x2028 || c.val = 0x2029 || c.val = 0x202f ||
  c.val = 0x205f || c.val = 0x3000

/-- Python `str.strip()` (no argument) on `List Char`. -/
def stripWSList (l : List Char) : List Char :=
  ((l.dropWhile isPySpace).reverse.dropWhile isPySpace).reverse

/-- Python `str.strip()` on `String`. -/
def pyStripWS (s : String) : String :=
  ⟨stripWSList s.data⟩

/-- Python `str.startswith` on `List Char`. -/
def startsWithList : List Char → List Char → Bool
  | _, [] => true
  | [], _ :: _ => false
  | a :: as, b :: bs => a = b && startsWithList as bs

/-- Python `str.startswith` on `String`. -/
def pyStartsWith (s p : String) : Bool :=
  startsWithList s.data p.data

/-- `BASE_URL = "https://quotes.toscrape.com"` from `scraper.py`. -/
def BASE_URL : String := "https://quotes.toscrape.com"

/-- The href-resolution step shared by author links and the next-page link:
`href.strip("/")`, then prepend `BASE_URL + "/"` unless the stripped href
starts with `"http"`. -/
def resolveHref (href : String) : String :=
  let t := pyStripChar '/' href
  if pyStartsWith t "http" then t else BASE_URL ++ "/" ++ t

/-- The structured view of one `div.quote` element of a listing page:
the optional text of `span.text`, the optional text of `small.author`,
the optional `a[href*='/author/']` link (outer `Option`: element present;
inner `Option`: `href` attribute present), and the texts of the
`div.tags a.tag` elements.  Element texts are the results of
`get_text(strip=True)`, an opaque query of the markup layer. -/
structure QuoteDiv where
  text_el : Option String
  author_el : Option String
  author_link_href : Option (Option String)
  tag_els : List String
deriving DecidableEq

/-- The structured view of a listing page: its `div.quote` elements and the
optional `li.next a` link with its optional `href`. -/
structure ListingDoc where
  quote_divs : List QuoteDiv
  next_link_href : Option (Option String)
deriving DecidableEq

/-- The structured view of an author profile page: optional texts of
`h3.author-title`, `span.author-born-date`, `span.author-born-location`. -/
structure AuthorDoc where
  author_title : Option String
  born_date : Option String
  born_location : Option String
deriving DecidableEq

/-- One record produced by `parse_quotes` (a dict with keys
`quote_text`, `author_name`, `tags`, `author_url` in the source). -/
structure Fragment where
  quote_text : String
  author_name : String
  tags : String
  author_url : String
deriving DecidableEq

/-- The per-record body of the loop in `parse_quotes`. -/
def parseQuoteDiv (qd : QuoteDiv) : Fragment :=
  { quote_text := match qd.text_el with
      | some s => pyStripChar '"' s
      | none => ""
    author_name := match qd.author_el with
      | some s => s
      | none => ""
    tags := String.intercalate "," qd.tag_els
    author_url := match qd.author_link_href with
      | some (some h) => if h = "" then "" else resolveHref h
      | _ => "" }

/-- `parse_quotes`: extract one `Fragment` per `div.quote`. -/
def parse_quotes (d : ListingDoc) : List Fragment :=
  d.quote_divs.map parseQuoteDiv

/-- The model of `re.sub(r"^\s*in\s+", "", raw, flags=re.IGNORECASE)`:
if the text begins with optional whitespace, then `i`/`I` `n`/`N`, then at
least one whitespace character, the whole matched run is removed
(the trailing whitespace greedily); otherwise the text is unchanged. -/
def dropInWord (l : List Char) : List Char :=
  match l.dropWhile isPySpace with
  | c1 :: c2 :: r =>
    if (c1 = 'i' || c1 = 'I') && (c2 = 'n' || c2 = 'N') then
      match r with
      | c3 :: _ => if isPySpace c3 then r.dropWhile isPySpace else l
      | [] => l
    else l
  | _ => l

/-- The result of `parse_author`: keys `full_name`, `birth_date`,
`birth_place`. -/
structure AuthorInfo where
  full_name : String
  birth_date : String
  birth_place : String
deriving DecidableEq

/-- `parse_author`: extract the three profile fields, each defaulting to
`""` when its element is absent; `birth_place` additionally strips the
leading case-insensitive `in` prefix with its following whitespace, then
applies `str.strip()`. -/
def parse_author (d : AuthorDoc) : AuthorInfo :=
  { full_name := match d.author_title with
      | some s => s
      | none => ""
    birth_date := match d.born_date with
      | some s => s
      | none => ""
    birth_place := match d.born_location with
      | some raw => pyStripWS ⟨dropInWord raw.data⟩
      | none => "" }

/-- The next-page cursor of `scrape_all`: the `li.next a` href, resolved
like author links; `none` when the element or its href is missing or the
href is the empty string (falsy in Python). -/
def nextCursor (d : ListingDoc) : Option String :=
  match d.next_link_href with
  | some (some h) => if h = "" then none else some (resolveHref h)
  | _ => none

/-- A fetched page, as the two structured views the code may query on it
(the same `fetch_page` serves listing and author URLs; BeautifulSoup
selector queries are the opaque markup capability). -/
structure Page where
  listing : ListingDoc
  author : AuthorDoc
deriving DecidableEq

/-- The environment: the HTTP transport as a function from URL to page
content or a network-error message (`requests.RequestException`). -/
structure World where
  fetch : String → Except String Page

/-- The mutable state threaded through a run: the author cache
(`author_cache`, an association list standing for the Python dict) and the
chronological log of author-page URLs for which a network request was
issued (successful or not). -/
structure FetchState where
  cache : List (String × AuthorInfo)
  fetches : List String
deriving DecidableEq

/-- The initial state: empty cache, no fetches. -/
def initState : FetchState := ⟨[], []⟩

/-- The all-empty author info used as fallback in `scrape_all`. -/
def emptyAuthorInfo : AuthorInfo := ⟨"", "", ""⟩

/-- `get_author_info`: return the cached value if the URL is a cache key;
otherwise fetch the page, parse it, store the result under the URL and
return it.  A failed fetch is logged as a network request but caches
nothing and propagates the error. -/
def get_author_info (w : World) (author_url : String) (st : FetchState) :
    Except String AuthorInfo × FetchState :=
  match st.cache.lookup author_url with
  | some info => (.ok info, st)
  | none =>
    match w.fetch author_url with
    | .error e => (.error e, { st with fetches := st.fetches ++ [author_url] })
    | .ok page =>
      let info := parse_author page.author
      (.ok info,
       { cache := (author_url, info) :: st.cache,
         fetches := st.fetches ++ [author_url] })

/-- One output row, with the fixed key set and key order of the dict
literal built in `scrape_all`. -/
structure Row where
  quote_text : String
  author_name : String
  tags : String
  author_full_name : String
  author_birth_date : String
  author_birth_place : String
deriving DecidableEq

/-- The row built in `scrape_all` from a fragment and its author info. -/
def mkRow (q : Fragment) (info : AuthorInfo) : Row :=
  ⟨q.quote_text, q.author_name, q.tags,
   info.full_name, info.birth_date, info.birth_place⟩

/-- How a run can fail: a `requests.RequestException` propagating from a
listing fetch, the `NameError` raised by the author-failure handler
(`print(f"Failed to fetch author page: {e}")` reads the undefined name
`e`, since the `except` clause binds nothing), or fuel exhaustion (the
model's stand-in for a non-terminating pagination chain). -/
inductive RunErr
  | net (e : String)
  | nameErr
  | outOfFuel
deriving DecidableEq

/-- The `for q in quotes` body of `scrape_all`: rows for a list of
fragments.  An empty `author_url` skips the fetch and uses the all-empty
author info; a failed author fetch raises `NameError` in the handler,
aborting the whole run with no row for that fragment. -/
def processQuotes (w : World) : List Fragment → FetchState →
    Except RunErr (List Row) × FetchState
  | [], st => (.ok [], st)
  | q :: rest, st =>
    if q.author_url = "" then
      match processQuotes w rest st with
      | (.ok rows, st1) => (.ok (mkRow q emptyAuthorInfo :: rows), st1)
      | (.error e, st1) => (.error e, st1)
    else
      match get_author_info w q.author_url st with
      | (.ok info, st1) =>
        match processQuotes w rest st1 with
        | (.ok rows, st2) => (.ok (mkRow q info :: rows), st2)
        | (.error e, st2) => (.error e, st2)
      | (.error _, st1) => (.error .nameErr, st1)

/-- The `while next_url` loop of `scrape_all`, with fuel bounding the
number of listing fetches.  Returns the outcome, the final fetch state and
the chronological list of listing URLs for which a fetch was issued. -/
def scrape_from (w : World) : Nat → Option String → FetchState →
    Except RunErr (List Row) × FetchState × List String
  | _, none, st => (.ok [], st, [])
  | 0, some _, st => (.error .outOfFuel, st, [])
  | fuel + 1, some url, st =>
    match w.fetch url with
    | .error e => (.error (.net e), st, [url])
    | .ok page =>
      match processQuotes w (parse_quotes page.listing) st with
      | (.error e, st1) => (.error e, st1, [url])
      | (.ok rows, st1) =>
        match scrape_from w fuel (nextCursor page.listing) st1 with
        | (.ok rest, st2, vs) => (.ok (rows ++ rest), st2, url :: vs)
        | (.error e, st2, vs) => (.error e, st2, url :: vs)

/-- `scrape_all`: run the crawl from `BASE_URL` with empty cache. -/
def scrape_all (w : World) (fuel : Nat) :
    Except RunErr (List Row) × FetchState × List String :=
  scrape_from w fuel (some BASE_URL) initState

/-- A Python dict row as `csv.DictWriter` sees it: keys in insertion
order with their values. -/
abbrev DictRow := List (String × String)

/-- The key list of a dict row, in insertion order. -/
def dictKeys (r : DictRow) : List String := r.map Prod.fst

/-- The dict built per row in `scrape_all`, with its key insertion
order. -/
def rowToDict (r : Row) : DictRow :=
  [("quote_text", r.quote_text), ("author_name", r.author_name),
   ("tags", r.tags), ("author_full_name", r.author_full_name),
   ("author_birth_date", r.author_birth_date),
   ("author_birth_place", r.author_birth_place)]

/-- `csv.DictWriter.writerow`: one output record per dict row, fields in
`fieldnames` order, a missing key yielding the empty field (`restval`),
a key outside `fieldnames` raising `ValueError`. -/
def writeDictRow (fieldnames : List String) (r : DictRow) :
    Except String (List String) :=
  if r.all (fun kv => fieldnames.contains kv.1) then
    .ok (fieldnames.map (fun k => (r.lookup k).getD ""))
  else
    .error "dict contains fields not in fieldnames"

/-- `save_to_csv`: `none` (no file created or overwritten) on an empty row
list; otherwise the written file as records — the header taken from the
first row's keys followed by one record per row. -/
def save_to_csv (rows : List DictRow) :
    Except String (Option (List (List String))) :=
  match rows with
  | [] => .ok none
  | r0 :: _ =>
    match rows.mapM (writeDictRow (dictKeys r0)) with
    | .ok recs => .ok (some (dictKeys r0 :: recs))
    | .error e => .error e

/-- How the process ends: normal exit reporting the row count, the
`SystemExit` raised in `main` for a caught `RequestException`, an uncaught
exception (traceback, non-zero status), or the fuel artifact. -/
inductive ExitKind
  | success (count : Nat)
  | sysExit (msg : String)
  | crash (msg : String)
  | outOfFuel
deriving DecidableEq

/-- The observable outcome of `main`: how the process exited and the
content of `output.csv` if it was written. -/
structure MainOutcome where
  exit : ExitKind
  file : Option (List (List String))
deriving DecidableEq

/-- `main`: run `scrape_all`, write the CSV and report the count; a
`RequestException` becomes `SystemExit` with a message naming the cause;
the `NameError` from the author-failure handler is not a
`RequestException` and escapes as a crash. -/
def mainRun (w : World) (fuel : Nat) : MainOutcome :=
  match (scrape_all w fuel).1 with
  | .ok rows =>
    match save_to_csv (rows.map rowToDict) with
    | .ok file => ⟨.success rows.length, file⟩
    | .error e => ⟨.crash e, none⟩
  | .error (.net e) =>
    ⟨.sysExit ("Scraping failed (network/timeout): " ++ e), none⟩
  | .error .nameErr => ⟨.crash "NameError: undefined name e", none⟩
  | .error .outOfFuel => ⟨.outOfFuel, none⟩

/-- Comparator following the specification words for the quote-text rule:
strip exactly a single layer of surrounding quotation marks — one leading
and one trailing quotation mark removed when present, inner ones
preserved. -/
def specQuoteStrip (s : String) : String :=
  let l1 := if s.data.head? = some '"' then s.data.tail else s.data
  ⟨if l1.getLast? = some '"' then l1.dropLast else l1⟩

/-- The fragments of the listing page at `u`; empty when the fetch
fails. -/
def fragsAt (w : World) (u : String) : List Fragment :=
  match w.fetch u with
  | .ok page => parse_quotes page.listing
  | .error _ => []

/-- The quote-side fields of a row, for comparing discovery order. -/
def rowQuoteFields (r : Row) : String × String × String :=
  (r.quote_text, r.author_name, r.tags)

/-- The quote-side fields of a fragment. -/
def fragQuoteFields (q : Fragment) : String × String × String :=
  (q.quote_text, q.author_name, q.tags)

/-- A finite pagination chain: from `u`, every page fetches successfully
and its next cursor points at the next chain element; the last page has
no next cursor. -/
def chainOk (w : World) : String → List String → Prop
  | u, [] => ∃ p, w.fetch u = .ok p ∧ nextCursor p.listing = none
  | u, v :: rest =>
    (∃ p, w.fetch u = .ok p ∧ nextCursor p.listing = some v) ∧
      chainOk w v rest

/-- The cache bookkeeping invariant for one URL: the URL appears in the
fetch log exactly once if it is a cache key and never otherwise. -/
def cacheInv (u : String) (st : FetchState) : Prop :=
  st.fetches.count u = if (st.cache.lookup u).isSome then 1 else 0

/-- A listing page with one fully-populated quote and a next link. -/
def listingDoc1 : ListingDoc :=
  ⟨[⟨some "\"Life is what happens.\"", some "Jane Doe",
     some (some "/author/jane-doe"), ["wisdom", "life"]⟩],
   some (some "/page/2")⟩

/-- A final listing page: one quote with no author link, no next link. -/
def listingDoc2 : ListingDoc :=
  ⟨[⟨some "\"Carpe diem.\"", some "Anon", none, []⟩], none⟩

/-- A listing page with no quotes and no next link. -/
def blankListing : ListingDoc := ⟨[], none⟩

/-- A profile page with no recognised elements. -/
def blankAuthor : AuthorDoc := ⟨none, none, none⟩

/-- Jane Doe's profile page. -/
def authorDocJane : AuthorDoc :=
  ⟨some "Jane Doe", some "June 1, 1900", some "in Springfield"⟩

/-- The second listing page URL of the test site. -/
def urlPage2 : String := "https://quotes.toscrape.com/page/2"

/-- Jane Doe's profile URL on the test site. -/
def urlJane : String := "https://quotes.toscrape.com/author/jane-doe"

/-- A fully healthy two-page site: every URL resolves. -/
def wOk : World :=
  ⟨fun u =>
    if u = BASE_URL then .ok ⟨listingDoc1, blankAuthor⟩
    else if u = urlPage2 then .ok ⟨listingDoc2, blankAuthor⟩
    else if u = urlJane then .ok ⟨blankListing, authorDocJane⟩
    else .ok ⟨blankListing, blankAuthor⟩⟩

/-- A site whose root listing page loads (one quote, no next link) but
where every author-page fetch fails. -/
def wAuthorFail : World :=
  ⟨fun u =>
    if u = BASE_URL then .ok ⟨⟨listingDoc1.quote_divs, none⟩, blankAuthor⟩
    else .error "connection refused"⟩

/-- A site where the root listing fetch itself fails. -/
def wListFail : World := ⟨fun _ => .error "503 server error"⟩

/-- A well-formed two-page pagination chain (both listing pages load and
link correctly) on which every author-page fetch fails. -/
def wChainAuthorFail : World :=
  ⟨fun u =>
    if u = BASE_URL then .ok ⟨listingDoc1, blankAuthor⟩
    else if u = urlPage2 then .ok ⟨listingDoc2, blankAuthor⟩
    else .error "connection refused"⟩

/-! ### Lemmas about the Python string primitives -/

theorem head_dropWhile_false {α : Type} (p : α → Bool) :
    ∀ (l : List α) (x : α), (l.dropWhile p).head? = some x → p x = false := by
  intro l
  induction l with
  | nil => intro x hx; simp [List.dropWhile] at hx
  | cons a t ih =>
    intro x hx
    rw [List.dropWhile_cons] at hx
    by_cases hp : p a
    · exact ih x (by simpa [hp] using hx)
    · have hpa : p a = false := by simpa using hp
      rw [hpa] at hx
      simp at hx
      rw [← hx]
      exact hpa

theorem dropWhile_eq_self_of_head {α : Type} (p : α → Bool) (l : List α)
    (h : ∀ x, l.head? = some x → p x = false) : l.dropWhile p = l := by
  cases l with
  | nil => rfl
  | cons a t =>
    rw [List.dropWhile_cons, h a rfl]
    simp

theorem exists_replicate_dropWhile (c : Char) (l : List Char) :
    ∃ n, l = List.replicate n c ++ l.dropWhile (· = c) := by
  refine ⟨(l.takeWhile (· = c)).length, ?_⟩
  have h1 : l.takeWhile (· = c) =
      List.replicate (l.takeWhile (· = c)).length c :=
    List.eq_replicate_length.mpr fun b hb => by
      have h2 := @List.mem_takeWhile_imp Char (fun x => decide (x = c)) l b hb
      exact of_decide_eq_true h2
  rw [← h1, List.takeWhile_append_dropWhile]

theorem getLast_dropWhile {α : Type} (p : α → Bool) :
    ∀ (l : List α), l.dropWhile p ≠ [] →
      (l.dropWhile p).getLast? = l.getLast? := by
  intro l
  induction l with
  | nil => intro h; exact absurd rfl h
  | cons a t ih =>
    intro h
    rw [List.dropWhile_cons] at h ⊢
    by_cases hp : p a
    · rw [if_pos hp] at h ⊢
      have ht : t ≠ [] := by
        intro he; subst he; simp [List.dropWhile] at h
      rw [ih h]
      exact (List.getLast?_append_of_ne_nil [a] ht).symm
    · rw [if_neg hp]

theorem stripCharList_head (c : Char) (l : List Char) :
    ∀ x, (stripCharList c l).head? = some x → x ≠ c := by
  intro x hx
  unfold stripCharList at hx
  rw [List.head?_reverse] at hx
  rcases hd : ((l.dropWhile (· = c)).reverse.dropWhile (· = c)) with _ | ⟨a, t⟩
  · rw [hd] at hx; simp at hx
  · rw [hd] at hx
    have hne : (l.dropWhile (· = c)).reverse.dropWhile (· = c) ≠ [] := by
      rw [hd]; simp
    have h2 := getLast_dropWhile (· = c) (l.dropWhile (· = c)).reverse hne
    rw [List.getLast?_reverse] at h2
    rw [hd] at h2
    have h3 : (l.dropWhile (· = c)).head? = some x := by rw [← h2]; exact hx
    have := head_dropWhile_false (· = c) l x h3
    exact of_decide_eq_false this

theorem stripCharList_last (c : Char) (l : List Char) :
    ∀ x, (stripCharList c l).getLast? = some x → x ≠ c := by
  intro x hx
  unfold stripCharList at hx
  rw [List.getLast?_reverse] at hx
  have := head_dropWhile_false (· = c) (l.dropWhile (· = c)).reverse x hx
  exact of_decide_eq_false this

theorem stripCharList_decomp (c : Char) (l : List Char) :
    ∃ a b, l = List.replicate a c ++ stripCharList c l ++
      List.replicate b c := by
  obtain ⟨a, ha⟩ := exists_replicate_dropWhile c l
  obtain ⟨b, hb⟩ := exists_replicate_dropWhile c (l.dropWhile (· = c)).reverse
  refine ⟨a, b, ?_⟩
  have hm : l.dropWhile (· = c) =
      stripCharList c l ++ List.replicate b c := by
    have := congrArg List.reverse hb
    rw [List.reverse_reverse, List.reverse_append,
      List.reverse_replicate] at this
    exact this
  rw [List.append_assoc, ← hm, ← ha]

theorem stripCharList_idem (c : Char) (l : List Char) :
    stripCharList c (stripCharList c l) = stripCharList c l := by
  have h1 : (stripCharList c l).dropWhile (· = c) = stripCharList c l :=
    dropWhile_eq_self_of_head _ _ fun x hx =>
      decide_eq_false (stripCharList_head c l x hx)
  have h2 : (stripCharList c l).reverse.dropWhile (· = c) =
      (stripCharList c l).reverse :=
    dropWhile_eq_self_of_head _ _ fun x hx => by
      rw [List.head?_reverse] at hx
      exact decide_eq_false (stripCharList_last c l x hx)
  show (((stripCharList c l).dropWhile (· = c)).reverse.dropWhile
      (· = c)).reverse = stripCharList c l
  rw [h1, h2, List.reverse_reverse]

theorem startsWithList_nil : ∀ l : List Char, startsWithList l [] = true
  | [] => rfl
  | _ :: _ => rfl

theorem startsWithList_append :
    ∀ (l p l2 : List Char), startsWithList l p = true →
      startsWithList (l ++ l2) p = true
  | l, [], l2, _ => startsWithList_nil (l ++ l2)
  | [], _ :: _, _, h => by simp [startsWithList] at h
  | a :: as, b :: bs, l2, h => by
    simp only [startsWithList, Bool.and_eq_true] at h
    simp only [List.cons_append, startsWithList, Bool.and_eq_true]
    exact ⟨h.1, startsWithList_append as bs l2 h.2⟩

theorem data_append (s t : String) : (s ++ t).data = s.data ++ t.data :=
  String.data_append s t

theorem base_slash_data (t : String) :
    (BASE_URL ++ "/" ++ t).data = (BASE_URL.data ++ ['/']) ++ t.data := by
  rw [data_append, data_append]

theorem resolved_startsWith_http (t : String) :
    pyStartsWith (BASE_URL ++ "/" ++ t) "http" = true := by
  unfold pyStartsWith
  rw [base_slash_data]
  exact startsWithList_append _ _ _ (by decide)

theorem strip_resolved (t : String) (ht : t.data ≠ [])
    (h2 : ∀ x, t.data.getLast? = some x → x ≠ '/') :
    pyStripChar '/' (BASE_URL ++ "/" ++ t) = BASE_URL ++ "/" ++ t := by
  have hdata := base_slash_data t
  have hfront : ((BASE_URL.data ++ ['/']) ++ t.data).dropWhile (· = '/') =
      (BASE_URL.data ++ ['/']) ++ t.data := by
    apply dropWhile_eq_self_of_head
    intro x hx
    rw [List.append_assoc, List.head?_append] at hx
    have hh : BASE_URL.data.head? = some 'h' := by decide
    rw [hh] at hx
    simp at hx
    rw [← hx]
    decide
  have hback : ((BASE_URL.data ++ ['/']) ++ t.data).reverse.dropWhile
      (· = '/') = ((BASE_URL.data ++ ['/']) ++ t.data).reverse := by
    apply dropWhile_eq_self_of_head
    intro x hx
    rw [List.head?_reverse] at hx
    rw [List.getLast?_append_of_ne_nil _ ht] at hx
    exact decide_eq_false (h2 x hx)
  apply String.ext
  show stripCharList '/' (BASE_URL ++ "/" ++ t).data =
    (BASE_URL ++ "/" ++ t).data
  rw [hdata]
  unfold stripCharList
  rw [hfront, hback, List.reverse_reverse]

theorem resolveHref_fixed (u : String)
    (hh : pyStartsWith u "http" = true)
    (hs : pyStripChar '/' u = u) : resolveHref u = u := by
  unfold resolveHref
  rw [hs, if_pos hh]

theorem stripChar_ne_empty_data (c : Char) (s : String)
    (h : pyStripChar c s ≠ "") : (pyStripChar c s).data ≠ [] := by
  intro he
  exact h (String.ext he)

theorem resolveHref_idem (u : String) (hne : pyStripChar '/' u ≠ "") :
    resolveHref (resolveHref u) = resolveHref u := by
  have hidem : pyStripChar '/' (pyStripChar '/' u) = pyStripChar '/' u :=
    String.ext (stripCharList_idem '/' u.data)
  by_cases hb : pyStartsWith (pyStripChar '/' u) "http" = true
  · have h1 : resolveHref u = pyStripChar '/' u := by
      unfold resolveHref; rw [if_pos hb]
    rw [h1]
    exact resolveHref_fixed _ hb hidem
  · have h1 : resolveHref u = BASE_URL ++ "/" ++ pyStripChar '/' u := by
      unfold resolveHref; rw [if_neg hb]
    rw [h1]
    have hstr : pyStripChar '/' (BASE_URL ++ "/" ++ pyStripChar '/' u) =
        BASE_URL ++ "/" ++ pyStripChar '/' u := by
      apply strip_resolved
      · exact stripChar_ne_empty_data '/' u hne
      · intro x hx
        exact stripCharList_last '/' u.data x hx
    exact resolveHref_fixed _ (resolved_startsWith_http _) hstr

/-! ### Lemmas about the birth-place regular expression -/

/-- Claim C2 as stated is false: `str.strip` removes every leading and
trailing quotation mark, not a single layer.  On literal text `""a""` the
code yields `a`, while a single stripped layer would leave `"a"`. -/
theorem c2_counterexample :
    (parseQuoteDiv ⟨some "\"\"a\"\"", none, none, []⟩).quote_text = "a" ∧
    specQuoteStrip "\"\"a\"\"" = "\"a\"" ∧
    (parseQuoteDiv ⟨some "\"\"a\"\"", none, none, []⟩).quote_text ≠
      specQuoteStrip "\"\"a\"\"" := by
  refine ⟨rfl, rfl, ?_⟩
  decide

/-- Claim C2 (amended): for every listing record whose text element is
present with literal text `s`, the extracted `quote_text` is obtained
from `s` by removing every leading and every trailing quotation-mark
character — `s` splits as quote-mark runs around `quote_text`, and
`quote_text` itself neither starts nor ends with a quotation mark
(so interior quotation marks are preserved). -/
theorem c2_quote_text_strips_quote_runs (qd : QuoteDiv) (s : String)
    (h : qd.text_el = some s) :
    ∃ a b, s.data = List.replicate a '"' ++
        (parseQuoteDiv qd).quote_text.data ++ List.replicate b '"' ∧
      (∀ x, (parseQuoteDiv qd).quote_text.data.head? = some x → x ≠ '"') ∧
      (∀ x, (parseQuoteDiv qd).quote_text.data.getLast? = some x →
        x ≠ '"') := by
  have hq : (parseQuoteDiv qd).quote_text = pyStripChar '"' s := by
    unfold parseQuoteDiv
    rw [h]
  rw [hq]
  obtain ⟨a, b, hab⟩ := stripCharList_decomp '"' s.data
  exact ⟨a, b, hab, stripCharList_head '"' s.data,
    stripCharList_last '"' s.data⟩

/-- Witness for C2 at the record text `"hi"`. -/
theorem c2_quote_text_strips_quote_runs_witness :
    (QuoteDiv.text_el ⟨some "\"hi\"", none, none, []⟩ = some "\"hi\"") ∧
    ∃ a b, ("\"hi\"" : String).data = List.replicate a '"' ++
        (parseQuoteDiv ⟨some "\"hi\"", none, none, []⟩).quote_text.data ++
        List.replicate b '"' ∧
      (∀ x, (parseQuoteDiv
        ⟨some "\"hi\"", none, none, []⟩).quote_text.data.head? = some x →
        x ≠ '"') ∧
      (∀ x, (parseQuoteDiv
        ⟨some "\"hi\"", none, none, []⟩).quote_text.data.getLast? = some x →
        x ≠ '"') :=
  ⟨rfl, c2_quote_text_strips_quote_runs ⟨some "\"hi\"", none, none, []⟩
    "\"hi\"" rfl⟩

/-! ### C3: stability of href resolution -/

/-- Claim C3 as stated is false: resolution first strips surrounding
slashes, so the absolute URL `http://example.com/` is not returned
unchanged; and resolving the relative href `/` a second time changes the
result again. -/
theorem c3_counterexample :
    resolveHref "http://example.com/" ≠ "http://example.com/" ∧
    resolveHref (resolveHref "/") ≠ resolveHref "/" := by
  constructor
  · decide
  · decide

/-- Claim C3 (amended): an absolute href carrying no leading or trailing
slash characters is returned unchanged; resolution is idempotent for
every href whose slash-stripped form is non-empty; and resolution is a
function of the href alone (the same href always resolves to the same
absolute URL). -/
theorem c3_resolve_stable :
    (∀ u : String, pyStartsWith u "http" = true →
      pyStripChar '/' u = u → resolveHref u = u) ∧
    (∀ u : String, pyStripChar '/' u ≠ "" →
      resolveHref (resolveHref u) = resolveHref u) ∧
    (∀ u v : String, u = v → resolveHref u = resolveHref v) :=
  ⟨resolveHref_fixed, resolveHref_idem, fun _ _ h => by rw [h]⟩

/-- Witness for C3 at `http://example.com` and `/author/jane-doe`. -/
theorem c3_resolve_stable_witness :
    (pyStartsWith "http://example.com" "http" = true ∧
      pyStripChar '/' "http://example.com" = "http://example.com" ∧
      resolveHref "http://example.com" = "http://example.com") ∧
    (pyStripChar '/' "/author/jane-doe" ≠ "" ∧
      resolveHref (resolveHref "/author/jane-doe") =
        resolveHref "/author/jane-doe") :=
  ⟨⟨by decide, by decide,
    c3_resolve_stable.1 "http://example.com" (by decide) (by decide)⟩,
   ⟨by decide, c3_resolve_stable.2.1 "/author/jane-doe" (by decide)⟩⟩

/-! ### C8: missing optional elements degrade to empty values -/

/-- Claim C8: extraction is total and each absent optional element yields
the empty string (the empty tag sequence joins to the empty string; an
absent next link yields an absent cursor); no extraction path fails. -/
theorem c8_missing_elements_default :
    (∀ qd : QuoteDiv, qd.text_el = none → (parseQuoteDiv qd).quote_text = "") ∧
    (∀ qd : QuoteDiv, qd.author_el = none →
      (parseQuoteDiv qd).author_name = "") ∧
    (∀ qd : QuoteDiv, qd.author_link_href = none →
      (parseQuoteDiv qd).author_url = "") ∧
    (∀ qd : QuoteDiv, qd.tag_els = [] → (parseQuoteDiv qd).tags = "") ∧
    (∀ d : AuthorDoc, d.author_title = none → (parse_author d).full_name = "") ∧
    (∀ d : AuthorDoc, d.born_date = none → (parse_author d).birth_date = "") ∧
    (∀ d : AuthorDoc, d.born_location = none →
      (parse_author d).birth_place = "") ∧
    (∀ qs : List QuoteDiv, nextCursor ⟨qs, none⟩ = none) := by
  refine ⟨?_, ?_, ?_, ?_, ?_, ?_, ?_, ?_⟩
  · intro qd h; unfold parseQuoteDiv; rw [h]
  · intro qd h; unfold parseQuoteDiv; rw [h]
  · intro qd h; unfold parseQuoteDiv; rw [h]
  · intro qd h; unfold parseQuoteDiv; rw [h]; rfl
  · intro d h; unfold parse_author; rw [h]
  · intro d h; unfold parse_author; rw [h]
  · intro d h; unfold parse_author; rw [h]
  · intro qs; rfl

/-- Witness for C8 at a record and a profile with every element absent. -/
theorem c8_missing_elements_default_witness :
    (QuoteDiv.text_el ⟨none, none, none, []⟩ = none) ∧
    (parseQuoteDiv ⟨none, none, none, []⟩).quote_text = "" ∧
    (parseQuoteDiv ⟨none, none, none, []⟩).author_name = "" ∧
    (parseQuoteDiv ⟨none, none, none, []⟩).author_url = "" ∧
    (parseQuoteDiv ⟨none, none, none, []⟩).tags = "" ∧
    (parse_author ⟨none, none, none⟩).full_name = "" ∧
    (parse_author ⟨none, none, none⟩).birth_date = "" ∧
    (parse_author ⟨none, none, none⟩).birth_place = "" ∧
    nextCursor ⟨[], none⟩ = none :=
  ⟨rfl,
   c8_missing_elements_default.1 ⟨none, none, none, []⟩ rfl,
   c8_missing_elements_default.2.1 ⟨none, none, none, []⟩ rfl,
   c8_missing_elements_default.2.2.1 ⟨none, none, none, []⟩ rfl,
   c8_missing_elements_default.2.2.2.1 ⟨none, none, none, []⟩ rfl,
   c8_missing_elements_default.2.2.2.2.1 ⟨none, none, none⟩ rfl,
   c8_missing_elements_default.2.2.2.2.2.1 ⟨none, none, none⟩ rfl,
   c8_missing_elements_default.2.2.2.2.2.2.1 ⟨none, none, none⟩ rfl,
   c8_missing_elements_default.2.2.2.2.2.2.2 []⟩

/-! ### C9: the birth-place prefix rule -/

theorem gai_hit {w : World} {url : String} {st : FetchState}
    {info : AuthorInfo} (hc : st.cache.lookup url = some info) :
    get_author_info w url st = (.ok info, st) := by
  unfold get_author_info
  rw [hc]

theorem gai_miss_err {w : World} {url : String} {st : FetchState}
    {e : String} (hc : st.cache.lookup url = none)
    (hf : w.fetch url = .error e) :
    get_author_info w url st =
      (.error e, { st with fetches := st.fetches ++ [url] }) := by
  unfold get_author_info
  rw [hc, hf]

theorem gai_miss_ok {w : World} {url : String} {st : FetchState}
    {page : Page} (hc : st.cache.lookup url = none)
    (hf : w.fetch url = .ok page) :
    get_author_info w url st =
      (.ok (parse_author page.author),
       { cache := (url, parse_author page.author) :: st.cache,
         fetches := st.fetches ++ [url] }) := by
  unfold get_author_info
  rw [hc, hf]

theorem gai_inv {w : World} {u : String} {st : FetchState}
    (hok : ∃ p, w.fetch u = .ok p) (hinv : cacheInv u st) (v : String) :
    cacheInv u (get_author_info w v st).2 := by
  cases hc : st.cache.lookup v with
  | some info => rw [gai_hit hc]; exact hinv
  | none =>
    cases hf : w.fetch v with
    | ok page =>
      rw [gai_miss_ok hc hf]
      unfold cacheInv at *
      simp only [List.count_append]
      by_cases huv : u = v
      · subst huv
        rw [hc] at hinv
        simp only [Option.isSome_none, Bool.false_eq_true, if_false] at hinv
        have hlk : List.lookup u ((u, parse_author page.author) :: st.cache)
            = some (parse_author page.author) := by
          simp [List.lookup]
        rw [hlk, hinv]
        simp
      · have hbeq : (u == v) = false := beq_eq_false_iff_ne.mpr huv
        have hlk : List.lookup u ((v, parse_author page.author) :: st.cache)
            = List.lookup u st.cache := by
          simp [List.lookup, hbeq]
        have hcnt : List.count u [v] = 0 := by
          rw [List.count_singleton]
          simp [beq_eq_false_iff_ne.mpr (Ne.symm huv)]
        rw [hlk, hcnt, Nat.add_zero, hinv]
    | error e =>
      rw [gai_miss_err hc hf]
      unfold cacheInv at *
      simp only [List.count_append]
      by_cases huv : u = v
      · subst huv
        obtain ⟨p, hp⟩ := hok
        rw [hp] at hf
        cases hf
      · have hcnt : List.count u [v] = 0 := by
          rw [List.count_singleton]
          simp [beq_eq_false_iff_ne.mpr (Ne.symm huv)]
        rw [hcnt, Nat.add_zero, hinv]

theorem processQuotes_inv {w : World} {u : String}
    (hok : ∃ p, w.fetch u = .ok p) :
    ∀ (qs : List Fragment) (st : FetchState), cacheInv u st →
      cacheInv u (processQuotes w qs st).2 := by
  intro qs
  induction qs with
  | nil => intro st h; exact h
  | cons q rest ih =>
    intro st h
    unfold processQuotes
    by_cases hq : q.author_url = ""
    · rw [if_pos hq]
      split <;> rename_i x st1 heq <;>
        (have h2 := ih st h; rw [heq] at h2; exact h2)
    · rw [if_neg hq]
      split
      · rename_i info st1 heq
        have h1 : cacheInv u st1 := by
          have h0 := gai_inv hok h q.author_url
          rw [heq] at h0
          exact h0
        split <;> rename_i x st2 heq2 <;>
          (have h2 := ih st1 h1; rw [heq2] at h2; exact h2)
      · rename_i e st1 heq
        have h0 := gai_inv hok h q.author_url
        rw [heq] at h0
        exact h0

theorem scrape_from_inv {w : World} {u : String}
    (hok : ∃ p, w.fetch u = .ok p) :
    ∀ (fuel : Nat) (cur : Option String) (st : FetchState), cacheInv u st →
      cacheInv u (scrape_from w fuel cur st).2.1 := by
  intro fuel
  induction fuel with
  | zero =>
    intro cur st h
    cases cur <;> exact h
  | succ n ih =>
    intro cur st h
    cases cur with
    | none => exact h
    | some url =>
      unfold scrape_from
      split
      · rename_i e heq
        exact h
      · rename_i page heq
        split
        · rename_i e st1 heq2
          have h1 := processQuotes_inv hok (parse_quotes page.listing) st h
          rw [heq2] at h1
          exact h1
        · rename_i rows st1 heq2
          have h1 : cacheInv u st1 := by
            have h0 := processQuotes_inv hok (parse_quotes page.listing) st h
            rw [heq2] at h0
            exact h0
          split <;> rename_i x st2 vs heq3 <;>
            (have h2 := ih (nextCursor page.listing) st1 h1;
              rw [heq3] at h2; exact h2)

/-! ### C4: the cache fetches each URL at most once -/

/-- Claim C4 as stated is false for a URL whose fetch fails: the failure
is not cached, so invoking `get_author_info` twice with that URL issues
the network request twice. -/
theorem c4_counterexample :
    ((get_author_info wListFail urlJane
        (get_author_info wListFail urlJane initState).2).2).fetches =
      [urlJane, urlJane] ∧
    ¬ ((get_author_info wListFail urlJane
        (get_author_info wListFail urlJane initState).2).2).fetches.count
        urlJane ≤ 1 := by
  constructor
  · decide
  · decide

/-- Claim C4 (amended): when the first `get_author_info` call for a URL
succeeds, a second call with the same URL returns the stored value and
leaves the state — including the network-request log — unchanged; and
across a whole `scrape_all` run, each URL whose fetch succeeds appears in
the author-fetch log at most once. -/
theorem c4_cache_fetch_once :
    (∀ (w : World) (url : String) (st : FetchState) (info : AuthorInfo),
      (get_author_info w url st).1 = .ok info →
      get_author_info w url (get_author_info w url st).2 =
        (.ok info, (get_author_info w url st).2)) ∧
    (∀ (w : World) (fuel : Nat) (u : String),
      (∃ p, w.fetch u = .ok p) →
      (scrape_all w fuel).2.1.fetches.count u ≤ 1) := by
  constructor
  · intro w url st info h
    cases hc : st.cache.lookup url with
    | some i =>
      rw [gai_hit hc] at h ⊢
      simp only at h
      cases h
      rw [gai_hit hc]
    | none =>
      cases hf : w.fetch url with
      | error e =>
        rw [gai_miss_err hc hf] at h
        simp at h
      | ok page =>
        rw [gai_miss_ok hc hf] at h ⊢
        simp only at h
        cases h
        apply gai_hit
        simp [List.lookup_cons]
  · intro w fuel u hok
    have h0 : cacheInv u initState := by
      unfold cacheInv initState
      simp [List.lookup]
    have h1 := scrape_from_inv hok fuel (some BASE_URL) initState h0
    unfold cacheInv at h1
    unfold scrape_all
    rw [h1]
    split <;> omega

/-- Witness for C4: on the healthy site the second lookup of Jane's URL
is served from the cache, and the full crawl fetches her page once. -/
theorem c4_cache_fetch_once_witness :
    ((get_author_info wOk urlJane initState).1 =
      .ok ⟨"Jane Doe", "June 1, 1900", "Springfield"⟩) ∧
    (get_author_info wOk urlJane (get_author_info wOk urlJane initState).2 =
      (.ok ⟨"Jane Doe", "June 1, 1900", "Springfield"⟩,
       (get_author_info wOk urlJane initState).2)) ∧
    (∃ p, wOk.fetch urlJane = .ok p) ∧
    (scrape_all wOk 5).2.1.fetches.count urlJane ≤ 1 :=
  ⟨by decide,
   c4_cache_fetch_once.1 wOk urlJane initState
     ⟨"Jane Doe", "June 1, 1900", "Springfield"⟩ (by decide),
   ⟨⟨blankListing, authorDocJane⟩, by decide⟩,
   c4_cache_fetch_once.2 wOk 5 urlJane
     ⟨⟨blankListing, authorDocJane⟩, by decide⟩⟩

/-! ### Lemmas about the crawl loop -/

theorem scrape_from_none {w : World} {fuel : Nat} {st : FetchState} :
    scrape_from w fuel none st = (.ok [], st, []) := by
  cases fuel <;> rfl

theorem processQuotes_ok_map {w : World} :
    ∀ (qs : List Fragment) (st : FetchState) (rows : List Row)
      (st1 : FetchState),
      processQuotes w qs st = (.ok rows, st1) →
      rows.map rowQuoteFields = qs.map fragQuoteFields := by
  intro qs
  induction qs with
  | nil =>
    intro st rows st1 h
    simp only [processQuotes, Prod.mk.injEq, Except.ok.injEq] at h
    obtain ⟨h1, h2⟩ := h
    subst h1
    rfl
  | cons q rest ih =>
    intro st rows st1 h
    unfold processQuotes at h
    by_cases hq : q.author_url = ""
    · rw [if_pos hq] at h
      split at h
      · rename_i rows0 stm heq
        simp only [Prod.mk.injEq, Except.ok.injEq] at h
        obtain ⟨h1, h2⟩ := h
        subst h1
        simp only [List.map_cons]
        rw [ih st rows0 stm heq]
        rfl
      · rename_i e stm heq
        simp at h
    · rw [if_neg hq] at h
      split at h
      · rename_i info stm heq
        split at h
        · rename_i rows0 st2 heq2
          simp only [Prod.mk.injEq, Except.ok.injEq] at h
          obtain ⟨h1, h2⟩ := h
          subst h1
          simp only [List.map_cons]
          rw [ih stm rows0 st2 heq2]
          rfl
        · rename_i e st2 heq2
          simp at h
      · rename_i e stm heq
        simp at h

theorem scrape_from_ok_map {w : World} :
    ∀ (fuel : Nat) (cur : Option String) (st : FetchState) (rows : List Row)
      (st1 : FetchState) (vs : List String),
      scrape_from w fuel cur st = (.ok rows, st1, vs) →
      rows.map rowQuoteFields =
        ((vs.map (fragsAt w)).flatten).map fragQuoteFields := by
  intro fuel
  induction fuel with
  | zero =>
    intro cur st rows st1 vs h
    cases cur with
    | none =>
      simp only [scrape_from, Prod.mk.injEq, Except.ok.injEq] at h
      obtain ⟨h1, h2, h3⟩ := h
      subst h1
      subst h3
      rfl
    | some u => simp [scrape_from] at h
  | succ n ih =>
    intro cur st rows st1 vs h
    cases cur with
    | none =>
      simp only [scrape_from, Prod.mk.injEq, Except.ok.injEq] at h
      obtain ⟨h1, h2, h3⟩ := h
      subst h1
      subst h3
      rfl
    | some url =>
      unfold scrape_from at h
      split at h
      · rename_i e heq
        simp at h
      · rename_i page heq
        split at h
        · rename_i e stm heq2
          simp at h
        · rename_i rows0 stm heq2
          split at h
          · rename_i rest2 st2 vs2 heq3
            simp only [Prod.mk.injEq, Except.ok.injEq] at h
            obtain ⟨h1, h2, h3⟩ := h
            subst h1
            subst h3
            simp only [List.map_cons, List.flatten_cons, List.map_append]
            rw [processQuotes_ok_map (parse_quotes page.listing) st rows0
              stm heq2]
            rw [ih (nextCursor page.listing) stm rest2 st2 vs2 heq3]
            have hfr : fragsAt w url = parse_quotes page.listing := by
              unfold fragsAt
              rw [heq]
            rw [hfr]
          · rename_i e st2 vs2 heq3
            simp at h

/-! ### C5: one output row per fragment, in discovery order -/

/-- Claim C5: when a crawl run completes, the rows are exactly one per
fragment of the visited listing pages: the row count equals the total
fragment count, and the rows' quote-side fields list the fragments'
fields in discovery order (page order, listing order). -/
theorem c5_row_count (w : World) (fuel : Nat) (rows : List Row)
    (st : FetchState) (vs : List String)
    (h : scrape_all w fuel = (.ok rows, st, vs)) :
    rows.length = (vs.map (fun u => (fragsAt w u).length)).sum ∧
    rows.map rowQuoteFields =
      ((vs.map (fragsAt w)).flatten).map fragQuoteFields := by
  unfold scrape_all at h
  have hm := scrape_from_ok_map fuel (some BASE_URL) initState rows st vs h
  refine ⟨?_, hm⟩
  have hlen := congrArg List.length hm
  rw [List.length_map, List.length_map] at hlen
  rw [hlen, List.length_flatten, List.map_map]
  rfl

/-- Witness for C5: the healthy two-page site yields two rows for its two
fragments, in order. -/
theorem c5_row_count_witness :
    scrape_all wOk 5 =
      (.ok [⟨"Life is what happens.", "Jane Doe", "wisdom,life",
             "Jane Doe", "June 1, 1900", "Springfield"⟩,
            ⟨"Carpe diem.", "Anon", "", "", "", ""⟩],
       ⟨[(urlJane, ⟨"Jane Doe", "June 1, 1900", "Springfield"⟩)], [urlJane]⟩,
       [BASE_URL, urlPage2]) ∧
    ([⟨"Life is what happens.", "Jane Doe", "wisdom,life",
       "Jane Doe", "June 1, 1900", "Springfield"⟩,
      ⟨"Carpe diem.", "Anon", "", "", "", ""⟩] : List Row).length =
      (([BASE_URL, urlPage2].map
        (fun u => (fragsAt wOk u).length)).sum) :=
  ⟨by decide,
   (c5_row_count wOk 5
     [⟨"Life is what happens.", "Jane Doe", "wisdom,life",
       "Jane Doe", "June 1, 1900", "Springfield"⟩,
      ⟨"Carpe diem.", "Anon", "", "", "", ""⟩]
     ⟨[(urlJane, ⟨"Jane Doe", "June 1, 1900", "Springfield"⟩)], [urlJane]⟩
     [BASE_URL, urlPage2] (by decide)).1⟩

/-! ### C10: termination along a finite pagination chain -/

theorem processQuotes_total_ok {w : World}
    (hok : ∀ v, ∃ p, w.fetch v = .ok p) :
    ∀ (qs : List Fragment) (st : FetchState),
      ∃ rows st1, processQuotes w qs st = (.ok rows, st1) := by
  intro qs
  induction qs with
  | nil => intro st; exact ⟨[], st, rfl⟩
  | cons q rest ih =>
    intro st
    by_cases hq : q.author_url = ""
    · obtain ⟨rows, st1, heq⟩ := ih st
      refine ⟨mkRow q emptyAuthorInfo :: rows, st1, ?_⟩
      unfold processQuotes
      rw [if_pos hq, heq]
    · cases hc : st.cache.lookup q.author_url with
      | some info =>
        obtain ⟨rows, st1, heq⟩ := ih st
        refine ⟨mkRow q info :: rows, st1, ?_⟩
        unfold processQuotes
        rw [if_neg hq, gai_hit hc]
        simp only [heq]
      | none =>
        obtain ⟨p, hp⟩ := hok q.author_url
        obtain ⟨rows, st1, heq⟩ :=
          ih { cache := (q.author_url, parse_author p.author) :: st.cache,
               fetches := st.fetches ++ [q.author_url] }
        refine ⟨mkRow q (parse_author p.author) :: rows, st1, ?_⟩
        unfold processQuotes
        rw [if_neg hq, gai_miss_ok hc hp]
        simp only [heq]

/-- Claim C10 as stated is false: it promises exactly one listing fetch
per chain page for every chain whose last page lacks a next element, but
when a record's author-detail fetch fails the handler's `NameError`
(see C1) aborts the whole run mid-chain.  On a well-formed two-page
chain whose author fetches fail, the loop issues only one listing fetch
and crashes. -/
theorem c10_counterexample :
    chainOk wChainAuthorFail BASE_URL [urlPage2] ∧
    (scrape_from wChainAuthorFail 5 (some BASE_URL) initState).2.2 =
      [BASE_URL] ∧
    (scrape_from wChainAuthorFail 5 (some BASE_URL) initState).1 =
      .error .nameErr ∧
    ([BASE_URL] : List String) ≠ [BASE_URL, urlPage2] := by
  refine ⟨⟨⟨⟨listingDoc1, blankAuthor⟩, by decide, by decide⟩,
    ⟨⟨listingDoc2, blankAuthor⟩, by decide, by decide⟩⟩,
    by decide, by decide, by decide⟩

/-- Claim C10 (amended): along a finite pagination chain whose last page
has no next element, provided every fetch in the run succeeds (in
particular no author-detail fetch fails — a failed author fetch crashes
the run through the C1 `NameError` and cuts pagination short), the crawl
loop terminates with success and its listing-fetch log is exactly the
chain, each page fetched once in order. -/
theorem c10_termination (w : World)
    (hok : ∀ v, ∃ p, w.fetch v = .ok p) :
    ∀ (rest : List String) (u : String) (fuel : Nat) (st : FetchState),
      chainOk w u rest → rest.length < fuel →
      ∃ rows st1, scrape_from w fuel (some u) st =
        (.ok rows, st1, u :: rest) := by
  intro rest
  induction rest with
  | nil =>
    intro u fuel st hc hlen
    obtain ⟨p, hp, hnext⟩ := hc
    cases fuel with
    | zero => omega
    | succ n =>
      obtain ⟨rows0, st1, hpq⟩ :=
        processQuotes_total_ok hok (parse_quotes p.listing) st
      refine ⟨rows0 ++ [], st1, ?_⟩
      unfold scrape_from
      simp only [hp, hpq, hnext, scrape_from_none]
  | cons v rest ih =>
    intro u fuel st hc hlen
    obtain ⟨⟨p, hp, hnext⟩, hchain⟩ := hc
    cases fuel with
    | zero => omega
    | succ n =>
      obtain ⟨rows0, st1, hpq⟩ :=
        processQuotes_total_ok hok (parse_quotes p.listing) st
      obtain ⟨rows1, st2, hrec⟩ :=
        ih v n st1 hchain (by simpa using Nat.lt_of_succ_lt_succ hlen)
      refine ⟨rows0 ++ rows1, st2, ?_⟩
      unfold scrape_from
      simp only [hp, hpq, hnext, hrec]

/-- Witness for C10: the healthy two-page site is a chain of length two;
the crawl fetches exactly its two pages in order. -/
theorem c10_termination_witness :
    (∀ v, ∃ p, wOk.fetch v = .ok p) ∧
    chainOk wOk BASE_URL [urlPage2] ∧
    ([urlPage2] : List String).length < 5 ∧
    ∃ rows st1, scrape_from wOk 5 (some BASE_URL) initState =
      (.ok rows, st1, [BASE_URL, urlPage2]) := by
  have hok : ∀ v, ∃ p, wOk.fetch v = .ok p := by
    intro v
    unfold wOk
    dsimp only
    split
    · exact ⟨_, rfl⟩
    · split
      · exact ⟨_, rfl⟩
      · split
        · exact ⟨_, rfl⟩
        · exact ⟨_, rfl⟩
  have hchain : chainOk wOk BASE_URL [urlPage2] := by
    constructor
    · exact ⟨⟨listingDoc1, blankAuthor⟩, by decide, by decide⟩
    · exact ⟨⟨listingDoc2, blankAuthor⟩, by decide, by decide⟩
  exact ⟨hok, hchain, by decide,
    c10_termination wOk hok [urlPage2] BASE_URL 5 initState hchain
      (by decide)⟩

/-! ### C6: a listing-page fetch failure is fatal -/

/-- Claim C6: a failing fetch at the current listing cursor aborts the
loop with that network error; and a run that ends in a listing network
error exits via `SystemExit` with a non-success status, a message naming
the underlying cause, and no output file written. -/
theorem c6_listing_failure_fatal :
    (∀ (w : World) (fuel : Nat) (u : String) (st : FetchState) (e : String),
      w.fetch u = .error e →
      (scrape_from w (fuel + 1) (some u) st).1 = .error (.net e)) ∧
    (∀ (w : World) (fuel : Nat) (e : String),
      (scrape_all w fuel).1 = .error (.net e) →
      mainRun w fuel =
        ⟨.sysExit ("Scraping failed (network/timeout): " ++ e), none⟩ ∧
      (∀ n, (mainRun w fuel).exit ≠ .success n) ∧
      (mainRun w fuel).file = none) := by
  constructor
  · intro w fuel u st e hf
    unfold scrape_from
    rw [hf]
  · intro w fuel e h
    have hm : mainRun w fuel =
        ⟨.sysExit ("Scraping failed (network/timeout): " ++ e), none⟩ := by
      unfold mainRun
      rw [h]
    refine ⟨hm, ?_, ?_⟩
    · intro n
      rw [hm]
      simp
    · rw [hm]

/-- Witness for C6 on the site whose root listing fetch fails. -/
theorem c6_listing_failure_fatal_witness :
    wListFail.fetch BASE_URL = .error "503 server error" ∧
    (scrape_from wListFail 5 (some BASE_URL) initState).1 =
      .error (.net "503 server error") ∧
    (scrape_all wListFail 5).1 = .error (.net "503 server error") ∧
    mainRun wListFail 5 =
      ⟨.sysExit "Scraping failed (network/timeout): 503 server error",
       none⟩ :=
  ⟨by decide,
   c6_listing_failure_fatal.1 wListFail 4 BASE_URL initState
     "503 server error" (by decide),
   by decide,
   ((c6_listing_failure_fatal.2 wListFail 5 "503 server error"
     (by decide)).1).trans (by decide)⟩

/-! ### C1: the author-failure handler is itself broken -/

/-- Claim C1 concerns the `except requests.RequestException` handler in
`scrape_all`.  Its body, `print(f"Failed to fetch author page: {e}")`,
reads the name `e`, which the clause never binds; at runtime the handler
raises `NameError`, which is not caught anywhere.  So on the failing
input below — a healthy listing page whose single record's author fetch
fails — the run aborts with no rows instead of logging, substituting an
empty `AuthorInfo` and continuing: the crawl produces no output row, and
the process crashes rather than continuing to remaining records. -/
theorem c1_author_failure_crashes :
    (scrape_all wAuthorFail 5).1 = .error .nameErr ∧
    mainRun wAuthorFail 5 = ⟨.crash "NameError: undefined name e", none⟩ ∧
    (scrape_all wAuthorFail 5).2.1.fetches = [urlJane] := by
  refine ⟨?_, ?_, ?_⟩ <;> decide

/-! ### C7: the table writer -/

theorem lookup_map_self :
    ∀ r : DictRow, (dictKeys r).Nodup →
      (dictKeys r).map (fun k2 => ((r.lookup k2).getD "")) =
        r.map Prod.snd := by
  intro r
  induction r with
  | nil => intro _; rfl
  | cons kv r ih =>
    obtain ⟨k, v⟩ := kv
    intro hnd
    have hnd2 : (k :: dictKeys r).Nodup := hnd
    rw [List.nodup_cons] at hnd2
    obtain ⟨hkn, hnd1⟩ := hnd2
    show (k :: dictKeys r).map
        (fun k2 => ((((k, v) :: r).lookup k2).getD "")) =
      v :: r.map Prod.snd
    rw [List.map_cons]
    congr 1
    · simp [List.lookup]
    · have hstep : ∀ k2 ∈ dictKeys r,
          ((((k, v) :: r).lookup k2).getD "") =
            ((r.lookup k2).getD "") := by
        intro k2 hk2
        have hne : (k2 == k) = false :=
          beq_eq_false_iff_ne.mpr (fun hEq => hkn (hEq ▸ hk2))
        simp [List.lookup, hne]
      rw [List.map_congr_left hstep]
      exact ih hnd1

theorem writeDictRow_self (r : DictRow) (hnd : (dictKeys r).Nodup) :
    writeDictRow (dictKeys r) r = .ok (r.map Prod.snd) := by
  unfold writeDictRow
  have hall : (r.all (fun kv => (dictKeys r).contains kv.1)) = true := by
    rw [List.all_eq_true]
    intro x hx
    exact List.elem_eq_true_of_mem (List.mem_map_of_mem Prod.fst hx)
  rw [if_pos hall, lookup_map_self r hnd]

theorem save_to_csv_cons (r0 : DictRow) (rest : List DictRow) :
    save_to_csv (r0 :: rest) =
      match (r0 :: rest).mapM (writeDictRow (dictKeys r0)) with
      | .ok recs => .ok (some (dictKeys r0 :: recs))
      | .error e => .error e := rfl

theorem mapM_ok_of_all {α β : Type} (f : α → Except String β) (g : α → β) :
    ∀ l : List α, (∀ x ∈ l, f x = .ok (g x)) →
      l.mapM f = .ok (l.map g) := by
  intro l
  induction l with
  | nil => intro _; rfl
  | cons a t ih =>
    intro h
    rw [List.mapM_cons, h a (by simp), ih (fun x hx => h x (by simp [hx]))]
    rfl

/-- Claim C7: `save_to_csv` is a no-op (no file) on an empty row list;
on a non-empty list whose rows all share the first row's key list, it
writes the header derived from the first row's keys followed by exactly
one record per row, each record listing the row's values in that same
key order. -/
theorem c7_table_writer :
    save_to_csv [] = .ok none ∧
    (∀ (r0 : DictRow) (rest : List DictRow),
      (∀ r ∈ r0 :: rest, dictKeys r = dictKeys r0) →
      (dictKeys r0).Nodup →
      save_to_csv (r0 :: rest) =
        .ok (some (dictKeys r0 ::
          (r0 :: rest).map (fun r => r.map Prod.snd)))) := by
  constructor
  · rfl
  · intro r0 rest hks hnd
    have hall : ∀ r ∈ r0 :: rest,
        writeDictRow (dictKeys r0) r = .ok (r.map Prod.snd) := by
      intro r hr
      have hk := hks r hr
      rw [← hk]
      exact writeDictRow_self r (by rw [hk]; exact hnd)
    rw [save_to_csv_cons, mapM_ok_of_all (writeDictRow (dictKeys r0))
      (fun r => r.map Prod.snd) (r0 :: rest) hall]

/-- Witness for C7 on two concrete scraped rows. -/
theorem c7_table_writer_witness :
    save_to_csv [] = .ok none ∧
    (∀ r ∈ [rowToDict ⟨"q1", "a1", "t1", "f1", "d1", "p1"⟩,
            rowToDict ⟨"q2", "a2", "t2", "f2", "d2", "p2"⟩],
      dictKeys r = dictKeys (rowToDict ⟨"q1", "a1", "t1", "f1", "d1", "p1"⟩)) ∧
    (dictKeys (rowToDict ⟨"q1", "a1", "t1", "f1", "d1", "p1"⟩)).Nodup ∧
    save_to_csv [rowToDict ⟨"q1", "a1", "t1", "f1", "d1", "p1"⟩,
                 rowToDict ⟨"q2", "a2", "t2", "f2", "d2", "p2"⟩] =
      .ok (some [["quote_text", "author_name", "tags", "author_full_name",
                  "author_birth_date", "author_birth_place"],
                 ["q1", "a1", "t1", "f1", "d1", "p1"],
                 ["q2", "a2", "t2", "f2", "d2", "p2"]]) := by
  refine ⟨c7_table_writer.1, ?_, ?_, ?_⟩
  · decide
  · decide
  · have h := c7_table_writer.2
      (rowToDict ⟨"q1", "a1", "t1", "f1", "d1", "p1"⟩)
      [rowToDict ⟨"q2", "a2", "t2", "f2", "d2", "p2"⟩]
      (by decide) (by decide)
    rw [h]
    decide

end Scraper
